import Mathlib

/-!
ucloud-mcp-server: path template matching, paginated collection, instance views.

A shallow embedding of

* `pkg/utils/utils.go`   : `ParsePath`
* `pkg/ucloud/client.go` : `ListInstances`, `GetInstanceMetrics`,
  `FormatInstanceInfo`, `FormatInstanceInfoWithMetrics`
* `pkg/mcp/handlers.go`  : `GetInstanceMetricsHandler`, `InstanceListToolHandler`

Conventions of the embedding.

* A Go `string` is a `List Char`.  The only bytes the code inspects are the
  ASCII bytes of the slash and of the two braces, which never occur inside a
  multi-byte UTF-8 sequence, so trimming, splitting and comparing by character
  agree with the byte-wise operations of package `strings`.
* A Go `(value, error)` result is a pair whose second component is
  `Option`: `none` is the nil error.  A nil map is `none`, a nil slice is `[]`.
* Go `int` is `Nat` for the offsets and lengths (they only grow from 0) and
  `Int` for the decoded `TotalCount`.  In `ListInstances` the offset equals
  the length of the accumulated slice at every loop head, so it cannot exceed
  the largest `int`; in `GetInstanceMetrics` reaching that bound takes more
  than 9 * 10^16 sequential upstream calls.
* `inst` stands for the Go variable `instance`, `vars` for `variables`: the Go
  names are reserved words here.
* The two `for { ... }` loops have no bound in the source.  They are embedded
  with a fuel argument counting loop iterations; `none` means the fuel ran out
  before the loop left.  Every upstream call is recorded in a trace.
-/

namespace UCloud

/-- A Go string, as its sequence of characters. -/
abbrev GoString := List Char

/-! ## Package `strings` (the functions `ParsePath` calls) -/

namespace strings

/-- Go `trimLeftByte(s, c)`: drop every leading `c`. -/
def trimLeftByte : GoString → Char → GoString
  | [], _ => []
  | x :: xs, c => if x = c then trimLeftByte xs c else x :: xs

/-- Go `trimRightByte(s, c)`: drop every trailing `c`. -/
def trimRightByte (s : GoString) (c : Char) : GoString :=
  (trimLeftByte s.reverse c).reverse

/-- Go `strings.Trim(s, cutset)` for a cutset of one ASCII byte `c`, which is
`trimLeftByte(trimRightByte(s, c), c)`. -/
def Trim (s : GoString) (c : Char) : GoString :=
  trimLeftByte (trimRightByte s c) c

/-- Go `strings.Split(s, sep)` for a separator of one byte `sep`: the pieces of
`s` between the occurrences of `sep`; the empty string gives one empty piece. -/
def Split : GoString → Char → List GoString
  | [], _ => [[]]
  | x :: xs, sep =>
    if x = sep then [] :: Split xs sep
    else
      match Split xs sep with
      | [] => [[x]]
      | piece :: rest => (x :: piece) :: rest

/-- Go `strings.HasPrefix(s, prefix)`. -/
def HasPrefix (s pre : GoString) : Bool :=
  decide (pre.length ≤ s.length) && decide (s.take pre.length = pre)

/-- Go `strings.HasSuffix(s, suffix)`. -/
def HasSuffix (s suf : GoString) : Bool :=
  decide (suf.length ≤ s.length) && decide (s.drop (s.length - suf.length) = suf)

/-- Go `strings.TrimPrefix(s, prefix)`. -/
def TrimPrefix (s pre : GoString) : GoString :=
  if HasPrefix s pre then s.drop pre.length else s

/-- Go `strings.TrimSuffix(s, suffix)`. -/
def TrimSuffix (s suf : GoString) : GoString :=
  if HasSuffix s suf then s.take (s.length - suf.length) else s

end strings

/-! ## `pkg/utils/utils.go` -/

/-- A Go `map[string]string`: its entries, at most one per key. -/
structure StringMap where
  entries : List (GoString × GoString)
  deriving DecidableEq, Repr

namespace StringMap

/-- The map built by `make(map[string]string)`. -/
def empty : StringMap := ⟨[]⟩

/-- Go `m[k] = v`: the entry of `k`, if any, is replaced. -/
def set (m : StringMap) (k v : GoString) : StringMap :=
  ⟨(k, v) :: m.entries.filter (fun e => decide (e.1 ≠ k))⟩

/-- Go `v, ok := m[k]`. -/
def get (m : StringMap) (k : GoString) : Option GoString :=
  (m.entries.find? (fun e => decide (e.1 = k))).map Prod.snd

/-- The keys of the map. -/
def keys (m : StringMap) : List GoString := m.entries.map Prod.fst

end StringMap

/-- The two errors `ParsePath` builds with `fmt.Errorf`, by the values they
are formatted from. -/
inductive ParseError where
  /-- The message "path length mismatch: pattern has %d parts, path has %d parts". -/
  | lengthMismatch (patternLen pathLen : Nat)
  /-- The message "path segment mismatch at position %d: expected %s, got %s". -/
  | segmentMismatch (position : Nat) (expected got : GoString)
  deriving DecidableEq, Repr

/-- The text of the error, as `fmt.Errorf` formats it. -/
def ParseError.message : ParseError → GoString
  | .lengthMismatch a b =>
    "path length mismatch: pattern has ".toList ++ (Nat.repr a).toList ++
      " parts, path has ".toList ++ (Nat.repr b).toList ++ " parts".toList
  | .segmentMismatch i e g =>
    "path segment mismatch at position ".toList ++ (Nat.repr i).toList ++
      ": expected ".toList ++ e ++ ", got ".toList ++ g

/-- The test of `ParsePath` for a variable segment:
`strings.HasPrefix(patternPart, "\x7b") && strings.HasSuffix(patternPart, "\x7d")`. -/
def isVariable (patternPart : GoString) : Bool :=
  strings.HasPrefix patternPart ['\x7b'] && strings.HasSuffix patternPart ['\x7d']

/-- The variable name `ParsePath` extracts:
`strings.TrimSuffix(strings.TrimPrefix(patternPart, "\x7b"), "\x7d")`. -/
def varName (patternPart : GoString) : GoString :=
  strings.TrimSuffix (strings.TrimPrefix patternPart ['\x7b']) ['\x7d']

/-- The `for i := 0; i < len(patternParts); i++` loop of `ParsePath`, entered
at index `i` with the segments from `i` on; `vars` is the map `variables`. -/
def ParsePath.loop :
    List GoString → List GoString → Nat → StringMap → Option StringMap × Option ParseError
  | patternPart :: patternRest, pathPart :: pathRest, i, vars =>
    if isVariable patternPart then
      ParsePath.loop patternRest pathRest (i + 1) (vars.set (varName patternPart) pathPart)
    else if patternPart ≠ pathPart then
      (none, some (ParseError.segmentMismatch i patternPart pathPart))
    else
      ParsePath.loop patternRest pathRest (i + 1) vars
  | _, _, _, vars => (some vars, none)

/-- Go `ParsePath(pattern, path)`. -/
def ParsePath (pattern path : GoString) : Option StringMap × Option ParseError :=
  let patternParts := strings.Split (strings.Trim pattern '/') '/'
  let pathParts := strings.Split (strings.Trim path '/') '/'
  if patternParts.length ≠ pathParts.length then
    (none, some (ParseError.lengthMismatch patternParts.length pathParts.length))
  else
    ParsePath.loop patternParts pathParts 0 StringMap.empty

/-- The segments of a pattern or of a path: trim the slashes at both ends,
split at the slashes. -/
def segments (s : GoString) : List GoString :=
  strings.Split (strings.Trim s '/') '/'

/-- The inner names of the placeholder segments, in segment order. -/
def placeholderNames (parts : List GoString) : List GoString :=
  (parts.filter isVariable).map varName

/-! ## `pkg/ucloud/client.go` -/

/-- A Go `error`, by its message (what `%v` prints). -/
abbrev GoError := GoString

/-- The field of `uhost.UHostDiskSet` the code reads. -/
structure UHostDiskSet where
  Size : Int
  deriving DecidableEq, Repr

/-- The field of `uhost.UHostIPSet` the code reads. -/
structure UHostIPSet where
  IP : GoString
  deriving DecidableEq, Repr

/-- The fields of `uhost.UHostInstanceSet` the code reads. -/
structure UHostInstanceSet where
  UHostId : GoString
  Name : GoString
  State : GoString
  Zone : GoString
  CPU : Int
  Memory : Int
  DiskSet : List UHostDiskSet
  IPSet : List UHostIPSet
  deriving DecidableEq, Repr

/-- The fields of `uhost.DescribeUHostInstanceRequest` the code sets; a nil
pointer or an unset slice is `none` or `[]`. -/
structure DescribeUHostInstanceRequest where
  UHostIds : List GoString
  Limit : Option Nat
  Offset : Option Nat
  deriving DecidableEq, Repr

/-- The fields of `uhost.DescribeUHostInstanceResponse`. -/
structure DescribeUHostInstanceResponse where
  TotalCount : Int
  UHostSet : List UHostInstanceSet
  deriving DecidableEq, Repr

/-- The upstream call `UHostClient.DescribeUHostInstance(req)`: the response,
or the error. -/
abbrev UHostClient := DescribeUHostInstanceRequest → Except GoError DescribeUHostInstanceResponse

/-- What a client operation hands back, with the upstream calls it issued, in
order: `value` and `err` are the two results of the Go function. -/
structure Run (α ρ : Type) where
  value : α
  err : Option GoError
  calls : List ρ
  deriving DecidableEq, Repr

/-- Go `DescribeInstance(instanceID)`; a nil instance pointer is `none`. -/
def DescribeInstance (c : UHostClient) (instanceID : GoString) :
    Option UHostInstanceSet × Option GoError :=
  let req : DescribeUHostInstanceRequest := ⟨[instanceID], none, none⟩
  match c req with
  | .error err =>
    (none, some ("failed to describe inst ".toList ++ instanceID ++ ": ".toList ++ err))
  | .ok resp =>
    match resp.UHostSet with
    | [] => (none, some ("inst ".toList ++ instanceID ++ " not found".toList))
    | first :: _ => (some first, none)

/-- The request `ListInstances` builds for one page. -/
def ListInstances.request (limit offset : Nat) : DescribeUHostInstanceRequest :=
  ⟨[], some limit, some offset⟩

/-- The `for { ... }` loop of `ListInstances`, entered with the current
`offset` and `allInstances`; `calls` are the requests issued so far. -/
def ListInstances.loop (c : UHostClient) :
    Nat → Nat → List UHostInstanceSet → List DescribeUHostInstanceRequest →
      Option (Run (List UHostInstanceSet) DescribeUHostInstanceRequest)
  | 0, _, _, _ => none
  | fuel + 1, offset, allInstances, calls =>
    let limit := 100
    let req := ListInstances.request limit offset
    match c req with
    | .error err =>
      some ⟨[], some ("failed to list instances: ".toList ++ err), calls ++ [req]⟩
    | .ok resp =>
      let allInstances := allInstances ++ resp.UHostSet
      if resp.UHostSet.length < limit then
        some ⟨allInstances, none, calls ++ [req]⟩
      else
        ListInstances.loop c fuel (offset + limit) allInstances (calls ++ [req])

/-- Go `ListInstances()`, run for at most `fuel` loop iterations. -/
def ListInstances (c : UHostClient) (fuel : Nat) :
    Option (Run (List UHostInstanceSet) DescribeUHostInstanceRequest) :=
  ListInstances.loop c fuel 0 [] []

/-- A Go `float64`, by its 64 bits; the code copies these values and never
computes on them. -/
abbrev Float64 := Nat

/-- Go `InstanceMetrics`. -/
structure InstanceMetrics where
  ResourceId : GoString
  CPUUtilization : Float64
  IORead : Float64
  IOWrite : Float64
  DiskReadOps : Float64
  DiskWriteOps : Float64
  NICIn : Float64
  NICOut : Float64
  NetPacketIn : Float64
  NetPacketOut : Float64
  Name : GoString
  PrivateIp : GoString
  CreateTime : Int
  deriving DecidableEq, Repr

/-- The payload `GetInstanceMetrics` sets on its generic request. -/
structure MetricPayload where
  Action : GoString
  Zone : GoString
  ResourceType : GoString
  Limit : Nat
  Offset : Nat
  deriving DecidableEq, Repr

/-- The local struct `metricsData` that the response payload is decoded into. -/
structure MetricsData where
  RetCode : Int
  Action : GoString
  ResourceType : GoString
  DataSet : List InstanceMetrics
  RefreshTime : Int
  TotalCount : Int
  deriving DecidableEq, Repr

/-- What one pass through `req.SetPayload`, `GenericClient.GenericInvoke`,
`json.Marshal` and `json.Unmarshal` comes to: the first of the four that
fails, with its error, or the decoded `metricsData`. -/
inductive InvokeOutcome where
  | setPayloadFailed (err : GoError)
  | invokeFailed (err : GoError)
  | marshalFailed (err : GoError)
  | unmarshalFailed (err : GoError)
  | decoded (metricsData : MetricsData)
  deriving DecidableEq, Repr

/-- The upstream side of `GetInstanceMetrics`: the outcome for each payload. -/
abbrev GenericClient := MetricPayload → InvokeOutcome

/-- The payload `GetInstanceMetrics` builds for one page. -/
def GetInstanceMetrics.payload (inst : UHostInstanceSet) (limit offset : Nat) :
    MetricPayload :=
  ⟨"GetMetricOverview".toList, inst.Zone, "uhost".toList, limit, offset⟩

/-- The `for { ... }` loop of `GetInstanceMetrics`, entered with the current
`offset` and `metrics`; `calls` are the payloads handed to `GenericInvoke` so
far. -/
def GetInstanceMetrics.loop (c : GenericClient) (inst : UHostInstanceSet) :
    Nat → Nat → List InstanceMetrics → List MetricPayload →
      Option (Run (List InstanceMetrics) MetricPayload)
  | 0, _, _, _ => none
  | fuel + 1, offset, metrics, calls =>
    let limit := 100
    let req := GetInstanceMetrics.payload inst limit offset
    match c req with
    | .setPayloadFailed err =>
      some ⟨[], some ("failed to set payload: ".toList ++ err), calls⟩
    | .invokeFailed err =>
      some ⟨[], some ("failed to get metrics: ".toList ++ err), calls ++ [req]⟩
    | .marshalFailed err =>
      some ⟨[], some ("failed to marshal payload: ".toList ++ err), calls ++ [req]⟩
    | .unmarshalFailed err =>
      some ⟨[], some ("failed to parse metrics data: ".toList ++ err), calls ++ [req]⟩
    | .decoded metricsData =>
      let metrics := metrics ++
        metricsData.DataSet.filter (fun data => decide (data.ResourceId = inst.UHostId))
      if metricsData.DataSet.length < limit then
        some ⟨metrics, none, calls ++ [req]⟩
      else
        let offset := offset + limit
        if (offset : Int) ≥ metricsData.TotalCount then
          some ⟨metrics, none, calls ++ [req]⟩
        else
          GetInstanceMetrics.loop c inst fuel offset metrics (calls ++ [req])

/-- Go `GetInstanceMetrics(instance)`, run for at most `fuel` loop iterations;
a nil `instance` is `none`. -/
def GetInstanceMetrics (c : GenericClient) (fuel : Nat) (inst : Option UHostInstanceSet) :
    Option (Run (List InstanceMetrics) MetricPayload) :=
  match inst with
  | none => some ⟨[], some "inst is nil".toList, []⟩
  | some inst => GetInstanceMetrics.loop c inst fuel 0 [] []

/-- Go `InstanceInfo`.  `Metrics` is an `interface\x7b\x7d`: `none` is the nil
interface, `some ms` holds the slice `ms`. -/
structure InstanceInfo where
  ID : GoString
  Name : GoString
  Status : GoString
  IP : GoString
  Zone : GoString
  CPU : Int
  Memory : Int
  DiskSize : Int
  Metrics : Option (List InstanceMetrics)
  Timestamp : GoString
  deriving DecidableEq, Repr

/-- Go `FormatInstanceInfo(instance)`.  `now` is the value of
`time.Now().Format(time.RFC3339)` at the call. -/
def FormatInstanceInfo (now : GoString) (inst : Option UHostInstanceSet) :
    Option InstanceInfo :=
  match inst with
  | none => none
  | some inst =>
    let ip : GoString :=
      match inst.IPSet with
      | first :: _ => first.IP
      | [] => []
    let diskSize : Int :=
      match inst.DiskSet with
      | first :: _ => first.Size
      | [] => 0
    some
      { ID := inst.UHostId
        Name := inst.Name
        Status := inst.State
        IP := ip
        Zone := inst.Zone
        CPU := inst.CPU
        Memory := inst.Memory
        DiskSize := diskSize
        Metrics := none
        Timestamp := now }

/-- Go `FormatInstanceInfoWithMetrics(instance, metrics)`. -/
def FormatInstanceInfoWithMetrics (now : GoString) (inst : Option UHostInstanceSet)
    (metrics : List InstanceMetrics) : Option InstanceInfo :=
  match FormatInstanceInfo now inst with
  | some info => some { info with Metrics := some metrics }
  | none => none

/-! ## `pkg/mcp/handlers.go` -/

/-- The map literal `basic_info` of `GetInstanceMetricsHandler`. -/
structure BasicInfo where
  cpu : Int
  memory : Int
  disk_size : Int
  zone : GoString
  ip : GoString
  deriving DecidableEq, Repr

/-- The map literal `metricsResponse` of `GetInstanceMetricsHandler`. -/
structure MetricsResponse where
  instance_id : GoString
  name : GoString
  status : GoString
  basic_info : BasicInfo
  metrics : List InstanceMetrics
  timestamp : GoString
  deriving DecidableEq, Repr

/-- The `*mcp.CallToolResult` built by `mcp.NewToolResultText` (`IsError`
false) and `mcp.NewToolResultError` (`IsError` true). -/
structure CallToolResult where
  Text : GoString
  IsError : Bool
  deriving DecidableEq, Repr

/-- How a call of a tool handler ends: it returns its two results, or the Go
runtime stops it with a run-time error. -/
inductive HandlerOutcome where
  | returned (result : Option CallToolResult) (err : Option GoError)
  /-- The run-time error "index out of range [index] with length length". -/
  | indexOutOfRange (index length : Nat)
  /-- The run-time error of a failed type assertion `.(string)`. -/
  | typeAssertionFailed
  /-- The run-time error of reading a field through a nil pointer. -/
  | nilDereference
  deriving DecidableEq, Repr

/-- Go `GetInstanceMetricsHandler(ctx, request)`.

* `instanceIDArg` is `request.Params.Arguments["instance_id"]` when it holds a
  string, `none` otherwise;
* `now` is the value of `time.Now().Format(time.RFC3339)`;
* `MarshalIndent` is `json.MarshalIndent(metricsResponse, "", "  ")`;
* `fuel` bounds the loop of `GetInstanceMetrics`, and `none` means it ran out. -/
def GetInstanceMetricsHandler (uhostClient : UHostClient) (genericClient : GenericClient)
    (now : GoString) (MarshalIndent : MetricsResponse → Except GoError GoString)
    (fuel : Nat) (instanceIDArg : Option GoString) : Option HandlerOutcome :=
  match instanceIDArg with
  | none => some HandlerOutcome.typeAssertionFailed
  | some instanceID =>
    match DescribeInstance uhostClient instanceID with
    | (_, some err) =>
      some (.returned (some ⟨"Failed to get instance ".toList ++ instanceID ++ ": ".toList ++ err,
        true⟩) none)
    | (inst, none) =>
      match GetInstanceMetrics genericClient fuel inst with
      | none => none
      | some run =>
        match run.err with
        | some err =>
          some (.returned (some ⟨"Failed to get metrics: ".toList ++ err, true⟩) none)
        | none =>
          if run.value.length = 0 then
            some (.returned (some ⟨"Instance metrics not found".toList, true⟩) none)
          else
            match inst with
            | none => some HandlerOutcome.nilDereference
            | some inst =>
              match inst.DiskSet with
              | [] => some (.indexOutOfRange 0 0)
              | disk0 :: _ =>
                match inst.IPSet with
                | [] => some (.indexOutOfRange 0 0)
                | ip0 :: _ =>
                  let metricsResponse : MetricsResponse :=
                    { instance_id := instanceID
                      name := inst.Name
                      status := inst.State
                      basic_info :=
                        { cpu := inst.CPU
                          memory := inst.Memory
                          disk_size := disk0.Size
                          zone := inst.Zone
                          ip := ip0.IP }
                      metrics := run.value
                      timestamp := now }
                  match MarshalIndent metricsResponse with
                  | .error err =>
                    some (.returned
                      (some ⟨"Failed to marshal metrics info: ".toList ++ err, true⟩) none)
                  | .ok jsonData => some (.returned (some ⟨jsonData, false⟩) none)

/-- The `for _, instance := range instances` loop of `InstanceListToolHandler`,
entered at the instance number `i` with the instances still to process; `all`
is the slice `allInstancesWithMetrics`.  The error of `GetInstanceMetrics` is
only logged.

Two instances of one zone send the same payloads, and the upstream may answer
them differently, so the upstream is given per call: `genericClient i` is the
upstream as it answers during the call for instance number `i`, and `now i` is
the clock reading when its view is built. -/
def InstanceListToolHandler.loop (genericClient : Nat → GenericClient) (now : Nat → GoString)
    (fuel : Nat) :
    Nat → List UHostInstanceSet → List (Option InstanceInfo) → Option (List (Option InstanceInfo))
  | _, [], all => some all
  | i, instanceCopy :: rest, all =>
    match GetInstanceMetrics (genericClient i) fuel (some instanceCopy) with
    | none => none
    | some run =>
      let info := FormatInstanceInfoWithMetrics (now i) (some instanceCopy) run.value
      InstanceListToolHandler.loop genericClient now fuel (i + 1) rest (all ++ [info])

/-- Go `InstanceListToolHandler(ctx, request)`.

* `MarshalIndent` is `json.MarshalIndent(allInstancesWithMetrics, "", "  ")`;
* `fuel` bounds the loop of `ListInstances` and the loop of each call of
  `GetInstanceMetrics`, and `none` means it ran out. -/
def InstanceListToolHandler (uhostClient : UHostClient) (genericClient : Nat → GenericClient)
    (now : Nat → GoString)
    (MarshalIndent : List (Option InstanceInfo) → Except GoError GoString)
    (fuel : Nat) : Option HandlerOutcome :=
  match ListInstances uhostClient fuel with
  | none => none
  | some listed =>
    match listed.err with
    | some err =>
      some (.returned (some ⟨"Failed to list instances: ".toList ++ err, true⟩) none)
    | none =>
      match InstanceListToolHandler.loop genericClient now fuel 0 listed.value [] with
      | none => none
      | some allInstancesWithMetrics =>
        match MarshalIndent allInstancesWithMetrics with
        | .error err =>
          some (.returned (some ⟨"Failed to marshal data: ".toList ++ err, true⟩) none)
        | .ok jsonData => some (.returned (some ⟨jsonData, false⟩) none)

/-! ## Vocabulary of the statements -/

/-- The records of a decoded page; no records when the fetch failed. -/
def InvokeOutcome.dataSet : InvokeOutcome → List InstanceMetrics
  | .decoded metricsData => metricsData.DataSet
  | _ => []

/-- The requests `ListInstances` issues for its first `n` pages: limit 100,
offsets 0, 100, ..., (n - 1) * 100. -/
def ListInstances.requests (n : Nat) : List DescribeUHostInstanceRequest :=
  (List.range n).map (fun i => ListInstances.request 100 (i * 100))

/-- The payloads `GetInstanceMetrics` sends for its first `n` pages: limit 100,
offsets 0, 100, ..., (n - 1) * 100. -/
def GetInstanceMetrics.payloads (inst : UHostInstanceSet) (n : Nat) : List MetricPayload :=
  (List.range n).map (fun i => GetInstanceMetrics.payload inst 100 (i * 100))

/-! ## Sample inputs -/

namespace Sample

/-- An instance with one disk and one address. -/
def inst (id : GoString) : UHostInstanceSet :=
  { UHostId := id
    Name := "web".toList
    State := "Running".toList
    Zone := "cn-bj2-02".toList
    CPU := 2
    Memory := 4096
    DiskSet := [⟨40⟩]
    IPSet := [⟨"10.0.0.1".toList⟩] }

/-- A metric record of the resource `id`. -/
def record (id : GoString) (createTime : Int) : InstanceMetrics :=
  { ResourceId := id
    CPUUtilization := 0
    IORead := 0
    IOWrite := 0
    DiskReadOps := 0
    DiskWriteOps := 0
    NICIn := 0
    NICOut := 0
    NetPacketIn := 0
    NetPacketOut := 0
    Name := "web".toList
    PrivateIp := "10.0.0.1".toList
    CreateTime := createTime }

/-- Two pages of instances: a full page, then a page of one. -/
def instancePages (i : Nat) : DescribeUHostInstanceResponse :=
  if i = 0 then ⟨101, List.replicate 100 (inst "uhost-a".toList)⟩
  else ⟨101, [inst "uhost-b".toList]⟩

/-- An upstream that serves `instancePages` by offset. -/
def uhostClient : UHostClient := fun req =>
  match req.Offset with
  | some offset => .ok (instancePages (offset / 100))
  | none => .ok (instancePages 0)

/-- An upstream whose first page is full and whose second call fails. -/
def failingUHostClient : UHostClient := fun req =>
  if req.Offset = some 0 then .ok (instancePages 0) else .error "timeout".toList

/-- A decoded page of metric records with the total count `total`. -/
def metricsPage (dataSet : List InstanceMetrics) (total : Int) : MetricsData :=
  { RetCode := 0
    Action := "GetMetricOverviewResponse".toList
    ResourceType := "uhost".toList
    DataSet := dataSet
    RefreshTime := 0
    TotalCount := total }

/-- An upstream that always answers with a full page and the total count 200. -/
def fullPagesClient : GenericClient := fun _ =>
  .decoded (metricsPage (List.replicate 100 (record "uhost-a".toList 1)) 200)

/-- An upstream with 102 records of two resources: a full page, then a page
of two. -/
def mixedClient : GenericClient := fun req =>
  if req.Offset = 0 then
    .decoded (metricsPage
      (record "uhost-a".toList 1 :: List.replicate 99 (record "uhost-b".toList 2)) 102)
  else
    .decoded (metricsPage [record "uhost-b".toList 3, record "uhost-a".toList 4] 102)

/-- An upstream whose first page is full, with more to come, and whose second
call fails. -/
def failingGenericClient : GenericClient := fun req =>
  if req.Offset = 0 then
    .decoded (metricsPage (List.replicate 100 (record "uhost-a".toList 1)) 500)
  else .invokeFailed "timeout".toList

/-- An instance that has no disk and no address in its lists. -/
def bareInst : UHostInstanceSet :=
  { UHostId := "uhost-bare".toList
    Name := "bare".toList
    State := "Install Fail".toList
    Zone := "cn-bj2-02".toList
    CPU := 1
    Memory := 1024
    DiskSet := []
    IPSet := [] }

/-- An upstream that describes `bareInst`. -/
def bareUHostClient : UHostClient := fun _ => .ok ⟨1, [bareInst]⟩

/-- An upstream with one metric record, of `bareInst`. -/
def bareGenericClient : GenericClient := fun _ =>
  .decoded (metricsPage [record "uhost-bare".toList 1] 1)

/-- A reading of the clock in RFC 3339. -/
def timestamp : GoString := "2025-01-01T00:00:00Z".toList

/-- An upstream with exactly 200 instances, which reports that total: full
pages at the offsets 0 and 100, an empty page beyond. -/
def twoHundredClient : UHostClient := fun req =>
  if req.Offset = some 0 ∨ req.Offset = some 100 then
    .ok ⟨200, List.replicate 100 (inst "uhost-a".toList)⟩
  else .ok ⟨200, []⟩

/-- An upstream that answers every request with a full page and the total
count 200. -/
def alwaysFullClient : UHostClient := fun _ =>
  .ok ⟨200, List.replicate 100 (inst "uhost-a".toList)⟩

/-- An upstream with 101 metric records whose answers carry no `TotalCount`
field, so that it decodes to 0: a full page of another resource, then the one
record of "uhost-a". -/
def noTotalClient : GenericClient := fun req =>
  if req.Offset = 0 then
    .decoded (metricsPage (List.replicate 100 (record "uhost-b".toList 2)) 0)
  else
    .decoded (metricsPage [record "uhost-a".toList 4] 0)

/-- An upstream that lists two instances in one short page. -/
def twoInstancesClient : UHostClient := fun _ =>
  .ok ⟨2, [inst "uhost-a".toList, inst "uhost-b".toList]⟩

/-- An upstream whose metrics call fails for the first instance and answers
the second with one record. -/
def perCallClient (i : Nat) : GenericClient :=
  if i = 0 then fun _ => .invokeFailed "timeout".toList
  else fun _ => .decoded (metricsPage [record "uhost-b".toList 3] 1)

/-- What `GetInstanceMetrics` returns against `perCallClient`, per instance. -/
def perCallRuns (i : Nat) : Run (List InstanceMetrics) MetricPayload :=
  if i = 0 then
    ⟨[], some ("failed to get metrics: ".toList ++ "timeout".toList),
      [GetInstanceMetrics.payload (inst "uhost-a".toList) 100 0]⟩
  else
    ⟨[record "uhost-b".toList 3], none,
      [GetInstanceMetrics.payload (inst "uhost-b".toList) 100 0]⟩

/-- A JSON encoder that never fails; of each view it keeps the identifier. -/
def marshalViews (views : List (Option InstanceInfo)) : Except GoError GoString :=
  .ok (views.flatMap (fun view =>
    match view with
    | some info => info.ID
    | none => "null".toList))

end Sample

/-! ## Lemmas on the string map -/

theorem StringMap.get_set_self (m : StringMap) (k v : GoString) :
    (m.set k v).get k = some v := by
  simp [StringMap.set, StringMap.get]

theorem find_filter_of_ne (es : List (GoString × GoString)) (k k' : GoString) (h : k' ≠ k) :
    (es.filter (fun e => decide (e.1 ≠ k))).find? (fun e => decide (e.1 = k'))
      = es.find? (fun e => decide (e.1 = k')) := by
  induction es with
  | nil => rfl
  | cons e es ih =>
    by_cases he : e.1 = k
    · have h2 : decide (e.1 = k') = false := by
        simp only [decide_eq_false_iff_not]
        intro e'
        exact h (e'.symm.trans he)
      rw [List.filter_cons_of_neg (by simpa using he), List.find?_cons, h2, ih]
    · rw [List.filter_cons_of_pos (by simpa using he), List.find?_cons, List.find?_cons, ih]

theorem StringMap.get_set_of_ne (m : StringMap) (k k' v : GoString) (h : k' ≠ k) :
    (m.set k v).get k' = m.get k' := by
  have hk : decide (k = k') = false := by
    simp only [decide_eq_false_iff_not]
    exact fun e => h e.symm
  simp only [StringMap.set, StringMap.get]
  rw [List.find?_cons, hk, find_filter_of_ne _ _ _ h]

theorem StringMap.mem_keys_set (m : StringMap) (k k' v : GoString) :
    k' ∈ (m.set k v).keys ↔ k' = k ∨ k' ∈ m.keys := by
  simp only [StringMap.set, StringMap.keys, List.map_cons, List.mem_cons, List.mem_map,
    List.mem_filter, decide_eq_true_eq]
  constructor
  · rintro (h | ⟨e, ⟨he, _⟩, rfl⟩)
    · exact Or.inl h
    · exact Or.inr ⟨e, he, rfl⟩
  · rintro (h | ⟨e, he, rfl⟩)
    · exact Or.inl h
    · by_cases hk : e.1 = k
      · exact Or.inl hk
      · exact Or.inr ⟨e, ⟨he, hk⟩, rfl⟩

theorem StringMap.nodup_keys_set (m : StringMap) (k v : GoString) (h : m.keys.Nodup) :
    (m.set k v).keys.Nodup := by
  simp only [StringMap.set, StringMap.keys, List.map_cons, List.nodup_cons, List.mem_map,
    List.mem_filter, decide_eq_true_eq]
  refine ⟨?_, ?_⟩
  · rintro ⟨e, ⟨_, hne⟩, he⟩
    exact hne he
  · exact (List.Nodup.sublist (List.Sublist.map _ (List.filter_sublist _)) h)

/-! ## `ParsePath` -/

theorem placeholderNames_cons_of_variable (p : GoString) (pats : List GoString)
    (h : isVariable p = true) :
    placeholderNames (p :: pats) = varName p :: placeholderNames pats := by
  simp [placeholderNames, List.filter_cons, h]

theorem placeholderNames_cons_of_literal (p : GoString) (pats : List GoString)
    (h : isVariable p = false) :
    placeholderNames (p :: pats) = placeholderNames pats := by
  simp [placeholderNames, List.filter_cons, h]

theorem mem_placeholderNames_of_getElem (pats : List GoString) (j : Nat) (p : GoString)
    (hp : pats[j]? = some p) (hv : isVariable p = true) :
    varName p ∈ placeholderNames pats := by
  have hmem : p ∈ pats := List.getElem?_mem hp
  simp only [placeholderNames, List.mem_map, List.mem_filter]
  exact ⟨p, ⟨hmem, hv⟩, rfl⟩

/-- What the loop of `ParsePath` returns when no literal segment differs: a
map that extends the entry map by the placeholders of the remaining
segments. -/
theorem ParsePath.loop_success (pats : List GoString) :
    ∀ (ps : List GoString) (i : Nat) (vars : StringMap),
      pats.length = ps.length →
      (∀ (j : Nat) (p q : GoString), pats[j]? = some p → ps[j]? = some q → isVariable p = false → p = q) →
      ∃ m, ParsePath.loop pats ps i vars = (some m, none) ∧
        (vars.keys.Nodup → m.keys.Nodup) ∧
        (∀ k, k ∈ m.keys ↔ k ∈ vars.keys ∨ k ∈ placeholderNames pats) ∧
        (∀ k, k ∉ placeholderNames pats → m.get k = vars.get k) ∧
        ((placeholderNames pats).Nodup →
          ∀ (j : Nat) (p q : GoString), pats[j]? = some p → ps[j]? = some q → isVariable p = true →
            m.get (varName p) = some q) := by
  induction pats with
  | nil =>
    intro ps i vars hlen _
    cases ps with
    | nil =>
      refine ⟨vars, rfl, id, ?_, fun _ _ => rfl, ?_⟩
      · intro k
        simp [placeholderNames]
      · intro _ j p q hp
        simp at hp
    | cons q qs => simp at hlen
  | cons p0 pats ih =>
    intro ps i vars hlen hlit
    cases ps with
    | nil => simp at hlen
    | cons q0 qs =>
      have hlen' : pats.length = qs.length := by simpa using hlen
      have hlit' : ∀ (j : Nat) (p q : GoString), pats[j]? = some p → qs[j]? = some q →
          isVariable p = false → p = q := by
        intro j p q hp hq hv
        exact hlit (j + 1) p q (by simpa using hp) (by simpa using hq) hv
      by_cases hv0 : isVariable p0 = true
      · obtain ⟨m, hm, hnd, hkeys, hkeep, hget⟩ :=
          ih qs (i + 1) (vars.set (varName p0) q0) hlen' hlit'
        refine ⟨m, ?_, ?_, ?_, ?_, ?_⟩
        · rw [ParsePath.loop, if_pos hv0]
          exact hm
        · intro h
          exact hnd (StringMap.nodup_keys_set _ _ _ h)
        · intro k
          rw [hkeys k, StringMap.mem_keys_set, placeholderNames_cons_of_variable _ _ hv0,
            List.mem_cons]
          tauto
        · intro k hk
          rw [placeholderNames_cons_of_variable _ _ hv0, List.mem_cons, not_or] at hk
          rw [hkeep k hk.2, StringMap.get_set_of_ne _ _ _ _ hk.1]
        · intro hnodup j p q hp hq hv
          rw [placeholderNames_cons_of_variable _ _ hv0, List.nodup_cons] at hnodup
          cases j with
          | zero =>
            simp only [List.getElem?_cons_zero, Option.some.injEq] at hp hq
            subst hp
            subst hq
            rw [hkeep _ hnodup.1, StringMap.get_set_self]
          | succ j =>
            exact hget hnodup.2 j p q (by simpa using hp) (by simpa using hq) hv
      · have hv0' : isVariable p0 = false := by simpa using hv0
        have h0 : p0 = q0 := hlit 0 p0 q0 (by simp) (by simp) hv0'
        obtain ⟨m, hm, hnd, hkeys, hkeep, hget⟩ := ih qs (i + 1) vars hlen' hlit'
        refine ⟨m, ?_, hnd, ?_, ?_, ?_⟩
        · rw [ParsePath.loop, if_neg hv0, if_neg (by simpa using h0)]
          exact hm
        · intro k
          rw [hkeys k, placeholderNames_cons_of_literal _ _ hv0']
        · intro k hk
          rw [placeholderNames_cons_of_literal _ _ hv0'] at hk
          exact hkeep k hk
        · intro hnodup j p q hp hq hv
          rw [placeholderNames_cons_of_literal _ _ hv0'] at hnodup
          cases j with
          | zero =>
            simp only [List.getElem?_cons_zero, Option.some.injEq] at hp
            subst hp
            rw [hv0'] at hv
            exact absurd hv (by simp)
          | succ j =>
            exact hget hnodup j p q (by simpa using hp) (by simpa using hq) hv

/-- What the loop of `ParsePath` returns when some literal segment differs: the
error of the leftmost such position, counted from the entry index `i`. -/
theorem ParsePath.loop_mismatch (pats : List GoString) :
    ∀ (ps : List GoString) (i : Nat) (vars : StringMap),
      (∃ (j : Nat) (p q : GoString), pats[j]? = some p ∧ ps[j]? = some q ∧ isVariable p = false ∧ p ≠ q) →
      ∃ (j : Nat) (p q : GoString), pats[j]? = some p ∧ ps[j]? = some q ∧ isVariable p = false ∧ p ≠ q ∧
        (∀ (j' : Nat), j' < j → ∀ p' q', pats[j']? = some p' → ps[j']? = some q' →
          isVariable p' = false → p' = q') ∧
        ParsePath.loop pats ps i vars = (none, some (ParseError.segmentMismatch (i + j) p q)) := by
  induction pats with
  | nil =>
    rintro ps i vars ⟨j, p, q, hp, _⟩
    simp at hp
  | cons p0 pats ih =>
    rintro ps i vars ⟨j, p, q, hp, hq, hv, hne⟩
    cases ps with
    | nil => simp at hq
    | cons q0 qs =>
      by_cases hhere : isVariable p0 = false ∧ p0 ≠ q0
      · refine ⟨0, p0, q0, by simp, by simp, hhere.1, hhere.2, ?_, ?_⟩
        · intro j' hj'
          exact absurd hj' (Nat.not_lt_zero _)
        · rw [ParsePath.loop, if_neg (by simp [hhere.1]), if_pos hhere.2]
          rfl
      · have hj : ∃ j0, j = j0 + 1 := by
          cases j with
          | zero =>
            simp only [List.getElem?_cons_zero, Option.some.injEq] at hp hq
            subst hp
            subst hq
            exact absurd ⟨hv, hne⟩ hhere
          | succ j0 => exact ⟨j0, rfl⟩
        obtain ⟨j0, rfl⟩ := hj
        have hex : ∃ (j : Nat) (p q : GoString), pats[j]? = some p ∧ qs[j]? = some q ∧
            isVariable p = false ∧ p ≠ q :=
          ⟨j0, p, q, by simpa using hp, by simpa using hq, hv, hne⟩
        by_cases hv0 : isVariable p0 = true
        · obtain ⟨j1, p1, q1, hp1, hq1, hv1, hne1, hleft, hrun⟩ :=
            ih qs (i + 1) (vars.set (varName p0) q0) hex
          refine ⟨j1 + 1, p1, q1, by simpa using hp1, by simpa using hq1, hv1, hne1, ?_, ?_⟩
          · intro j' hj' p' q' hp' hq' hv'
            cases j' with
            | zero =>
              simp only [List.getElem?_cons_zero, Option.some.injEq] at hp'
              subst hp'
              rw [hv0] at hv'
              exact absurd hv' (by simp)
            | succ j2 =>
              exact hleft j2 (by omega) p' q' (by simpa using hp') (by simpa using hq') hv'
          · rw [ParsePath.loop, if_pos hv0, hrun, Nat.add_assoc, Nat.add_comm 1 j1]
        · have hv0' : isVariable p0 = false := by simpa using hv0
          have h0 : p0 = q0 := by
            by_contra hc
            exact hhere ⟨hv0', hc⟩
          obtain ⟨j1, p1, q1, hp1, hq1, hv1, hne1, hleft, hrun⟩ := ih qs (i + 1) vars hex
          refine ⟨j1 + 1, p1, q1, by simpa using hp1, by simpa using hq1, hv1, hne1, ?_, ?_⟩
          · intro j' hj' p' q' hp' hq' hv'
            cases j' with
            | zero =>
              simp only [List.getElem?_cons_zero, Option.some.injEq] at hp' hq'
              subst hp'
              subst hq'
              exact h0
            | succ j2 =>
              exact hleft j2 (by omega) p' q' (by simpa using hp') (by simpa using hq') hv'
          · rw [ParsePath.loop, if_neg hv0, if_neg (by simpa using h0), hrun, Nat.add_assoc,
              Nat.add_comm 1 j1]

/-- Segments that agree pairwise along the zipped lists agree position by
position. -/
theorem literals_agree_of_zip (pats : List GoString) :
    ∀ (ps : List GoString),
      (∀ e ∈ pats.zip ps, isVariable e.1 = false → e.1 = e.2) →
      ∀ (j : Nat) (p q : GoString), pats[j]? = some p → ps[j]? = some q →
        isVariable p = false → p = q := by
  induction pats with
  | nil =>
    intro ps _ j p q hp
    simp at hp
  | cons p0 pats ih =>
    intro ps h j p q hp hq hv
    cases ps with
    | nil => simp at hq
    | cons q0 qs =>
      cases j with
      | zero =>
        simp only [List.getElem?_cons_zero, Option.some.injEq] at hp hq
        subst hp
        subst hq
        exact h (p0, q0) (by simp) hv
      | succ j =>
        refine ih qs ?_ j p q (by simpa using hp) (by simpa using hq) hv
        intro e he
        exact h e (by simp [he])

/-- C1. `ParsePath` success case.  With `segments` the trimmed and split
pieces: when pattern and path have equally many segments, the placeholder
names of the pattern are pairwise distinct, and every pattern segment that is
not a placeholder equals the path segment at its position, `ParsePath` returns
a nil error and a map whose keys are exactly the placeholder names and which
sends the name of each placeholder to the path segment at its position.  In
particular the example of the doc comment of `ParsePath` holds. -/
theorem ParsePath_binds_placeholders (pattern path : GoString)
    (hlen : (segments pattern).length = (segments path).length)
    (hdistinct : (placeholderNames (segments pattern)).Nodup)
    (hlit : ∀ (i : Nat) (p q : GoString), (segments pattern)[i]? = some p →
      (segments path)[i]? = some q → isVariable p = false → p = q) :
    (∃ m : StringMap, ParsePath pattern path = (some m, none) ∧ m.keys.Nodup ∧
      (∀ k, k ∈ m.keys ↔ k ∈ placeholderNames (segments pattern)) ∧
      (∀ (i : Nat) (p q : GoString), (segments pattern)[i]? = some p →
        (segments path)[i]? = some q → isVariable p = true →
          m.get (varName p) = some q)) ∧
    ParsePath "/instances/\x7binstance_id\x7d/status".toList
        "/instances/uhost-123/status".toList
      = (some ⟨[("instance_id".toList, "uhost-123".toList)]⟩, none) := by
  refine ⟨?_, by decide⟩
  obtain ⟨m, hm, hnd, hkeys, _, hget⟩ :=
    ParsePath.loop_success (segments pattern) (segments path) 0 StringMap.empty hlen hlit
  refine ⟨m, ?_, hnd (by simp [StringMap.empty, StringMap.keys]), ?_, hget hdistinct⟩
  · have hlen' : ¬ (strings.Split (strings.Trim pattern '/') '/').length
        ≠ (strings.Split (strings.Trim path '/') '/').length := by
      simpa [segments] using hlen
    simp only [ParsePath, if_neg hlen']
    exact hm
  · intro k
    rw [hkeys k]
    simp [StringMap.empty, StringMap.keys]

theorem ParsePath_binds_placeholders_witness :
    (∃ m : StringMap, ParsePath "/a/\x7bx\x7d/b/\x7by\x7d".toList "a/1/b/2/".toList
        = (some m, none) ∧ m.keys.Nodup ∧
      (∀ k, k ∈ m.keys ↔ k ∈ placeholderNames (segments "/a/\x7bx\x7d/b/\x7by\x7d".toList)) ∧
      (∀ (i : Nat) (p q : GoString), (segments "/a/\x7bx\x7d/b/\x7by\x7d".toList)[i]? = some p →
        (segments "a/1/b/2/".toList)[i]? = some q → isVariable p = true →
          m.get (varName p) = some q)) ∧
    ParsePath "/instances/\x7binstance_id\x7d/status".toList
        "/instances/uhost-123/status".toList
      = (some ⟨[("instance_id".toList, "uhost-123".toList)]⟩, none) :=
  ParsePath_binds_placeholders "/a/\x7bx\x7d/b/\x7by\x7d".toList "a/1/b/2/".toList
    (by decide) (by decide) (literals_agree_of_zip _ _ (by decide))

/-- C2. `ParsePath` segment-count mismatch.  When the pattern and the path
have different numbers of segments, `ParsePath` returns the length-mismatch
error, formatted from the two counts, and a nil map: no binding comes with the
error. -/
theorem ParsePath_length_mismatch (pattern path : GoString)
    (h : (segments pattern).length ≠ (segments path).length) :
    ParsePath pattern path
      = (none, some (ParseError.lengthMismatch (segments pattern).length
          (segments path).length)) ∧
    (ParsePath pattern path).1 = none := by
  have h' : (strings.Split (strings.Trim pattern '/') '/').length
      ≠ (strings.Split (strings.Trim path '/') '/').length := by
    simpa [segments] using h
  simp only [ParsePath, if_pos h', segments, and_self]

theorem ParsePath_length_mismatch_witness :
    ParsePath "/instances/\x7binstance_id\x7d/status".toList "/instances/uhost-123".toList
      = (none, some (ParseError.lengthMismatch
          (segments "/instances/\x7binstance_id\x7d/status".toList).length
          (segments "/instances/uhost-123".toList).length)) ∧
    (ParsePath "/instances/\x7binstance_id\x7d/status".toList
      "/instances/uhost-123".toList).1 = none :=
  ParsePath_length_mismatch "/instances/\x7binstance_id\x7d/status".toList
    "/instances/uhost-123".toList (by decide)

/-- C3. `ParsePath` literal mismatch.  When the pattern and the path have
equally many segments and some pattern segment that is not a placeholder
differs from the path segment at its position, `ParsePath` returns a nil map
and the segment-mismatch error formatted from the leftmost such position, the
pattern segment there (expected) and the path segment there (got).  In
particular `ParsePath("a/\x7bx\x7d/c", "a/b/d")` fails at position 2, expected
"c", got "d". -/
theorem ParsePath_literal_mismatch (pattern path : GoString)
    (hlen : (segments pattern).length = (segments path).length)
    (hex : ∃ (i : Nat) (p q : GoString), (segments pattern)[i]? = some p ∧
      (segments path)[i]? = some q ∧ isVariable p = false ∧ p ≠ q) :
    (∃ (i : Nat) (p q : GoString), (segments pattern)[i]? = some p ∧
      (segments path)[i]? = some q ∧ isVariable p = false ∧ p ≠ q ∧
      (∀ (j : Nat), j < i → ∀ p' q', (segments pattern)[j]? = some p' →
        (segments path)[j]? = some q' → isVariable p' = false → p' = q') ∧
      ParsePath pattern path = (none, some (ParseError.segmentMismatch i p q))) ∧
    ParsePath "a/\x7bx\x7d/c".toList "a/b/d".toList
      = (none, some (ParseError.segmentMismatch 2 "c".toList "d".toList)) := by
  refine ⟨?_, by decide⟩
  obtain ⟨i, p, q, hp, hq, hv, hne, hleft, hrun⟩ :=
    ParsePath.loop_mismatch (segments pattern) (segments path) 0 StringMap.empty hex
  refine ⟨i, p, q, hp, hq, hv, hne, hleft, ?_⟩
  have hlen' : ¬ (strings.Split (strings.Trim pattern '/') '/').length
      ≠ (strings.Split (strings.Trim path '/') '/').length := by
    simpa [segments] using hlen
  simp only [ParsePath, if_neg hlen']
  rw [Nat.zero_add] at hrun
  exact hrun

theorem ParsePath_literal_mismatch_witness :
    (∃ (i : Nat) (p q : GoString), (segments "/A/\x7bx\x7d/c".toList)[i]? = some p ∧
      (segments "/a/b/d".toList)[i]? = some q ∧ isVariable p = false ∧ p ≠ q ∧
      (∀ (j : Nat), j < i → ∀ p' q', (segments "/A/\x7bx\x7d/c".toList)[j]? = some p' →
        (segments "/a/b/d".toList)[j]? = some q' → isVariable p' = false → p' = q') ∧
      ParsePath "/A/\x7bx\x7d/c".toList "/a/b/d".toList
        = (none, some (ParseError.segmentMismatch i p q))) ∧
    ParsePath "a/\x7bx\x7d/c".toList "a/b/d".toList
      = (none, some (ParseError.segmentMismatch 2 "c".toList "d".toList)) :=
  ParsePath_literal_mismatch "/A/\x7bx\x7d/c".toList "/a/b/d".toList (by decide)
    ⟨2, "c".toList, "d".toList, by decide, by decide, by decide, by decide⟩

/-! ## `ListInstances` -/

/-- The loop of `ListInstances`, entered at page `k`, over `n` full pages
followed by a short one. -/
theorem ListInstances.loop_full_then_short (c : UHostClient)
    (pages : Nat → DescribeUHostInstanceResponse) (n : Nat) :
    ∀ (k fuel : Nat) (allInstances : List UHostInstanceSet)
      (calls : List DescribeUHostInstanceRequest),
      (∀ i, k ≤ i → i ≤ k + n → c (ListInstances.request 100 (i * 100)) = .ok (pages i)) →
      (∀ i, k ≤ i → i < k + n → (pages i).UHostSet.length = 100) →
      (pages (k + n)).UHostSet.length < 100 →
      n + 1 ≤ fuel →
      ListInstances.loop c fuel (k * 100) allInstances calls
        = some ⟨allInstances ++ (List.range' k (n + 1)).flatMap (fun i => (pages i).UHostSet),
            none,
            calls ++ (List.range' k (n + 1)).map
              (fun i => ListInstances.request 100 (i * 100))⟩ := by
  induction n with
  | zero =>
    intro k fuel allInstances calls hfetch _ hshort hfuel
    obtain ⟨f, rfl⟩ : ∃ f, fuel = f + 1 := ⟨fuel - 1, by omega⟩
    have h0 := hfetch k (Nat.le_refl k) (Nat.le_refl k)
    rw [Nat.add_zero] at hshort
    rw [ListInstances.loop]
    simp only [h0, hshort, if_true, Nat.zero_add, List.range'_one, List.flatMap_cons,
      List.flatMap_nil, List.append_nil, List.map_cons, List.map_nil]
  | succ n ih =>
    intro k fuel allInstances calls hfetch hfull hshort hfuel
    obtain ⟨f, rfl⟩ : ∃ f, fuel = f + 1 := ⟨fuel - 1, by omega⟩
    have h0 := hfetch k (Nat.le_refl k) (by omega)
    have hf0 := hfull k (Nat.le_refl k) (by omega)
    have hnot : ¬ (pages k).UHostSet.length < 100 := by omega
    have hk : k * 100 + 100 = (k + 1) * 100 := by ring
    have hrec := ih (k + 1) f (allInstances ++ (pages k).UHostSet)
      (calls ++ [ListInstances.request 100 (k * 100)])
      (fun i h1 h2 => hfetch i (by omega) (by omega))
      (fun i h1 h2 => hfull i (by omega) (by omega))
      (by rwa [show k + (n + 1) = k + 1 + n by ring] at hshort)
      (by omega)
    rw [ListInstances.loop]
    simp only [h0, if_neg hnot, hk, hrec]
    rw [List.range'_succ k (n + 1)]
    simp only [List.flatMap_cons, List.map_cons, List.append_assoc, List.singleton_append]

/-- C4. `ListInstances` aggregation.  When the upstream answers the offsets
0, 100, ..., (N - 1) * 100 with exactly 100 instances each and the offset
N * 100 with fewer than 100, all without error, `ListInstances` returns, with a
nil error, the concatenation of these N + 1 pages in fetch order, and the
requests it issues are exactly the N + 1 requests with limit 100 and offsets
0, 100, ..., N * 100, in that order. -/
theorem ListInstances_aggregates_pages (c : UHostClient)
    (pages : Nat → DescribeUHostInstanceResponse) (N : Nat)
    (hfetch : ∀ i, i ≤ N → c (ListInstances.request 100 (i * 100)) = .ok (pages i))
    (hfull : ∀ i, i < N → (pages i).UHostSet.length = 100)
    (hshort : (pages N).UHostSet.length < 100)
    (fuel : Nat) (hfuel : N + 1 ≤ fuel) :
    ListInstances c fuel
        = some ⟨(List.range (N + 1)).flatMap (fun i => (pages i).UHostSet), none,
            ListInstances.requests (N + 1)⟩ ∧
      (ListInstances.requests (N + 1)).length = N + 1 := by
  have h := ListInstances.loop_full_then_short c pages N 0 fuel [] []
    (fun i _ hi => hfetch i (by omega))
    (fun i _ hi => hfull i (by omega))
    (by simpa using hshort) hfuel
  simp only [Nat.zero_mul, List.nil_append, ← List.range_eq_range'] at h
  exact ⟨h, by simp [ListInstances.requests]⟩

theorem ListInstances_aggregates_pages_witness :
    ListInstances Sample.uhostClient 2
        = some ⟨(List.range (1 + 1)).flatMap (fun i => (Sample.instancePages i).UHostSet), none,
            ListInstances.requests (1 + 1)⟩ ∧
      (ListInstances.requests (1 + 1)).length = 1 + 1 :=
  ListInstances_aggregates_pages Sample.uhostClient Sample.instancePages 1
    (fun i hi => by
      have : i = 0 ∨ i = 1 := by omega
      rcases this with rfl | rfl <;> rfl)
    (fun i hi => by
      have : i = 0 := by omega
      subst this
      simp [Sample.instancePages])
    (by simp [Sample.instancePages]) 2 (Nat.le_refl 2)

/-- The loop of `ListInstances` passes `n` full pages in `n` iterations. -/
theorem ListInstances.loop_passes_full_pages (c : UHostClient)
    (pages : Nat → DescribeUHostInstanceResponse) (n : Nat) :
    ∀ (k fuel : Nat) (allInstances : List UHostInstanceSet)
      (calls : List DescribeUHostInstanceRequest),
      (∀ i, k ≤ i → i < k + n → c (ListInstances.request 100 (i * 100)) = .ok (pages i)) →
      (∀ i, k ≤ i → i < k + n → (pages i).UHostSet.length = 100) →
      ListInstances.loop c (fuel + n) (k * 100) allInstances calls
        = ListInstances.loop c fuel ((k + n) * 100)
            (allInstances ++ (List.range' k n).flatMap (fun i => (pages i).UHostSet))
            (calls ++ (List.range' k n).map (fun i => ListInstances.request 100 (i * 100))) := by
  induction n with
  | zero =>
    intro k fuel allInstances calls _ _
    simp
  | succ n ih =>
    intro k fuel allInstances calls hfetch hfull
    have h0 := hfetch k (Nat.le_refl k) (by omega)
    have hf0 := hfull k (Nat.le_refl k) (by omega)
    have hnot : ¬ (pages k).UHostSet.length < 100 := by omega
    have hk : k * 100 + 100 = (k + 1) * 100 := by ring
    have hrec := ih (k + 1) fuel (allInstances ++ (pages k).UHostSet)
      (calls ++ [ListInstances.request 100 (k * 100)])
      (fun i h1 h2 => hfetch i (by omega) (by omega))
      (fun i h1 h2 => hfull i (by omega) (by omega))
    rw [show fuel + (n + 1) = (fuel + n) + 1 by ring, ListInstances.loop]
    simp only [h0, if_neg hnot, hk, hrec]
    rw [List.range'_succ k n, show k + 1 + n = k + (n + 1) by ring]
    simp only [List.flatMap_cons, List.map_cons, List.append_assoc, List.singleton_append]

/-! ## `GetInstanceMetrics` -/

/-- The loop of `GetInstanceMetrics` passes `n` full pages, each with a total
count beyond the next offset, in `n` iterations. -/
theorem GetInstanceMetrics.loop_passes_continuing_pages (c : GenericClient) (inst : UHostInstanceSet)
    (n : Nat) :
    ∀ (k fuel : Nat) (metrics : List InstanceMetrics) (calls : List MetricPayload),
      (∀ i, k ≤ i → i < k + n → ∃ d, c (GetInstanceMetrics.payload inst 100 (i * 100))
          = .decoded d ∧ d.DataSet.length = 100 ∧ (((i + 1) * 100 : Nat) : Int) < d.TotalCount) →
      GetInstanceMetrics.loop c inst (fuel + n) (k * 100) metrics calls
        = GetInstanceMetrics.loop c inst fuel ((k + n) * 100)
            (metrics ++ ((List.range' k n).flatMap
              (fun i => (c (GetInstanceMetrics.payload inst 100 (i * 100))).dataSet)).filter
                (fun data => decide (data.ResourceId = inst.UHostId)))
            (calls ++ (List.range' k n).map
              (fun i => GetInstanceMetrics.payload inst 100 (i * 100))) := by
  induction n with
  | zero =>
    intro k fuel metrics calls _
    simp
  | succ n ih =>
    intro k fuel metrics calls hfetch
    obtain ⟨d, hd, hlen, htotal⟩ := hfetch k (Nat.le_refl k) (by omega)
    have hnot : ¬ d.DataSet.length < 100 := by omega
    have hk : k * 100 + 100 = (k + 1) * 100 := by ring
    have hgo : ¬ (((k * 100 + 100 : Nat) : Int) ≥ d.TotalCount) := by
      rw [hk]
      omega
    have hrec := ih (k + 1) fuel
      (metrics ++ d.DataSet.filter (fun data => decide (data.ResourceId = inst.UHostId)))
      (calls ++ [GetInstanceMetrics.payload inst 100 (k * 100)])
      (fun i h1 h2 => hfetch i (by omega) (by omega))
    rw [show fuel + (n + 1) = (fuel + n) + 1 by ring, GetInstanceMetrics.loop]
    simp only [hd, if_neg hnot, if_neg hgo]
    rw [hk, hrec, List.range'_succ k n, show k + 1 + n = k + (n + 1) by ring]
    simp only [List.flatMap_cons, List.map_cons, List.append_assoc, List.singleton_append,
      List.filter_append, hd, InvokeOutcome.dataSet]

/-- A run of the loop of `GetInstanceMetrics` against an upstream that never
fails ends with a nil error, and what it adds to `metrics` is the selection,
from the pages it fetched, of the records of the instance. -/
theorem GetInstanceMetrics.loop_filters (c : GenericClient) (inst : UHostInstanceSet)
    (hok : ∀ offset, ∃ d, c (GetInstanceMetrics.payload inst 100 offset) = .decoded d)
    (fuel : Nat) :
    ∀ (offset : Nat) (metrics : List InstanceMetrics) (calls : List MetricPayload)
      (run : Run (List InstanceMetrics) MetricPayload),
      GetInstanceMetrics.loop c inst fuel offset metrics calls = some run →
      run.err = none ∧
      ∃ more, run.calls = calls ++ more ∧
        run.value = metrics ++ (more.flatMap (fun req => (c req).dataSet)).filter
          (fun data => decide (data.ResourceId = inst.UHostId)) := by
  induction fuel with
  | zero =>
    intro offset metrics calls run h
    simp [GetInstanceMetrics.loop] at h
  | succ fuel ih =>
    intro offset metrics calls run h
    obtain ⟨d, hd⟩ := hok offset
    rw [GetInstanceMetrics.loop] at h
    simp only [hd] at h
    have hone : ∀ r : Run (List InstanceMetrics) MetricPayload,
        r = ⟨metrics ++ d.DataSet.filter (fun data => decide (data.ResourceId = inst.UHostId)),
          none, calls ++ [GetInstanceMetrics.payload inst 100 offset]⟩ →
        r.err = none ∧ ∃ more, r.calls = calls ++ more ∧
          r.value = metrics ++ (more.flatMap (fun req => (c req).dataSet)).filter
            (fun data => decide (data.ResourceId = inst.UHostId)) := by
      intro r hr
      subst hr
      exact ⟨rfl, [GetInstanceMetrics.payload inst 100 offset], rfl, by
        simp [hd, InvokeOutcome.dataSet]⟩
    split at h
    · exact hone run (Option.some.inj h).symm
    · split at h
      · exact hone run (Option.some.inj h).symm
      · obtain ⟨herr, more, hcalls, hvalue⟩ := ih _ _ _ run h
        refine ⟨herr, GetInstanceMetrics.payload inst 100 offset :: more, ?_, ?_⟩
        · rw [hcalls, List.append_assoc, List.singleton_append]
        · rw [hvalue]
          simp [hd, InvokeOutcome.dataSet, List.filter_append]

/-- C5. `GetInstanceMetrics` total-count stop.  Against an upstream that
answers every request with a full page of exactly 100 records and the total
count 200, `GetInstanceMetrics` on a non-nil instance returns, with a nil
error, after exactly two fetches, at the offsets 0 and 100; there is no third
one. -/
theorem GetInstanceMetrics_stops_at_total_count (c : GenericClient) (inst : UHostInstanceSet)
    (hsrc : ∀ req, ∃ d, c req = .decoded d ∧ d.DataSet.length = 100 ∧ d.TotalCount = 200)
    (fuel : Nat) (hfuel : 2 ≤ fuel) :
    ∃ run, GetInstanceMetrics c fuel (some inst) = some run ∧ run.err = none ∧
      run.calls = [GetInstanceMetrics.payload inst 100 0, GetInstanceMetrics.payload inst 100 100] ∧
      run.calls.length = 2 := by
  obtain ⟨f, rfl⟩ : ∃ f, fuel = (f + 1) + 1 := ⟨fuel - 2, by omega⟩
  obtain ⟨d1, hd1, hlen1, htotal1⟩ := hsrc (GetInstanceMetrics.payload inst 100 100)
  have hadv := GetInstanceMetrics.loop_passes_continuing_pages c inst 1 0 (f + 1) [] []
    (fun i h1 h2 => by
      obtain ⟨d, hd, hlen, htotal⟩ := hsrc (GetInstanceMetrics.payload inst 100 (i * 100))
      refine ⟨d, hd, hlen, ?_⟩
      rw [htotal]
      have : i = 0 := by omega
      subst this
      decide)
  have hnot : ¬ d1.DataSet.length < 100 := by omega
  have hstop : (((100 + 100 : Nat) : Int) ≥ d1.TotalCount) := by
    rw [htotal1]
    decide
  simp only [Nat.zero_mul, Nat.zero_add, Nat.one_mul, List.nil_append, List.range'_one,
    List.map_cons, List.map_nil] at hadv
  have hrun : GetInstanceMetrics c (f + 1 + 1) (some inst)
      = some ⟨List.filter (fun data => decide (data.ResourceId = inst.UHostId))
            ([0].flatMap fun i => (c (GetInstanceMetrics.payload inst 100 (i * 100))).dataSet)
          ++ d1.DataSet.filter (fun data => decide (data.ResourceId = inst.UHostId)),
        none,
        [GetInstanceMetrics.payload inst 100 0, GetInstanceMetrics.payload inst 100 100]⟩ := by
    simp only [GetInstanceMetrics]
    rw [hadv, GetInstanceMetrics.loop]
    simp only [hd1, if_neg hnot, if_pos hstop, List.singleton_append]
  exact ⟨_, hrun, rfl, rfl, rfl⟩

theorem GetInstanceMetrics_stops_at_total_count_witness :
    ∃ run, GetInstanceMetrics Sample.fullPagesClient 5 (some (Sample.inst "uhost-a".toList))
        = some run ∧ run.err = none ∧
      run.calls = [GetInstanceMetrics.payload (Sample.inst "uhost-a".toList) 100 0,
        GetInstanceMetrics.payload (Sample.inst "uhost-a".toList) 100 100] ∧
      run.calls.length = 2 :=
  GetInstanceMetrics_stops_at_total_count Sample.fullPagesClient (Sample.inst "uhost-a".toList)
    (fun _ => ⟨_, rfl, by simp [Sample.metricsPage], rfl⟩) 5 (by decide)

/-- C6. `GetInstanceMetrics` filtering.  Against an upstream whose fetches all
succeed, every run of `GetInstanceMetrics` on a non-nil instance that returns
has a nil error, and the sequence it returns is the concatenation of the
fetched pages, in fetch order, restricted to the records whose `ResourceId` is
the `UHostId` of the instance, in their order; when no fetched record has that
`ResourceId`, the sequence is empty. -/
theorem GetInstanceMetrics_filters_by_resource (c : GenericClient) (inst : UHostInstanceSet)
    (hok : ∀ offset, ∃ d, c (GetInstanceMetrics.payload inst 100 offset) = .decoded d)
    (fuel : Nat) (run : Run (List InstanceMetrics) MetricPayload)
    (hrun : GetInstanceMetrics c fuel (some inst) = some run) :
    run.err = none ∧
    run.value = (run.calls.flatMap (fun req => (c req).dataSet)).filter
      (fun data => decide (data.ResourceId = inst.UHostId)) ∧
    ((∀ data ∈ run.calls.flatMap (fun req => (c req).dataSet),
        data.ResourceId ≠ inst.UHostId) → run.value = []) := by
  obtain ⟨herr, more, hcalls, hvalue⟩ :=
    GetInstanceMetrics.loop_filters c inst hok fuel 0 [] [] run hrun
  rw [List.nil_append] at hcalls hvalue
  subst hcalls
  refine ⟨herr, hvalue, ?_⟩
  intro hnone
  rw [hvalue, List.filter_eq_nil_iff]
  intro data hdata
  simpa using hnone data hdata

theorem GetInstanceMetrics_filters_by_resource_witness :
    (⟨[Sample.record "uhost-a".toList 1, Sample.record "uhost-a".toList 4], none,
        GetInstanceMetrics.payloads (Sample.inst "uhost-a".toList) 2⟩ :
      Run (List InstanceMetrics) MetricPayload).err = none ∧
    [Sample.record "uhost-a".toList 1, Sample.record "uhost-a".toList 4]
      = ((GetInstanceMetrics.payloads (Sample.inst "uhost-a".toList) 2).flatMap
          (fun req => (Sample.mixedClient req).dataSet)).filter
        (fun data => decide (data.ResourceId = (Sample.inst "uhost-a".toList).UHostId)) ∧
    ((∀ data ∈ (GetInstanceMetrics.payloads (Sample.inst "uhost-a".toList) 2).flatMap
          (fun req => (Sample.mixedClient req).dataSet),
        data.ResourceId ≠ (Sample.inst "uhost-a".toList).UHostId) →
      [Sample.record "uhost-a".toList 1, Sample.record "uhost-a".toList 4] = []) :=
  GetInstanceMetrics_filters_by_resource Sample.mixedClient (Sample.inst "uhost-a".toList)
    (fun offset => by
      by_cases h : offset = 0
      · exact ⟨_, by simp [Sample.mixedClient, GetInstanceMetrics.payload, h]; rfl⟩
      · exact ⟨_, by simp [Sample.mixedClient, GetInstanceMetrics.payload, h]; rfl⟩)
    3 _ (by rfl)

/-- C7. A failing page fetch is atomic, in `ListInstances` and in
`GetInstanceMetrics` on a non-nil instance.  Let the first `n` fetches (the
offsets 0, ..., (n - 1) * 100) succeed with full pages, in `GetInstanceMetrics`
each with a total count beyond the next offset so that the next fetch is
issued, and let fetch number `n + 1`, at the offset `n * 100`, return an error.
Then the operation returns that error, wrapped, with an empty result, none of
the accumulated items, and the fetches it issued are exactly the `n + 1` up to
the failing one. -/
theorem page_fetch_failure_is_atomic
    (cu : UHostClient) (pages : Nat → DescribeUHostInstanceResponse) (errU : GoError)
    (cg : GenericClient) (inst : UHostInstanceSet) (errG : GoError) (n : Nat)
    (hU : ∀ i, i < n → cu (ListInstances.request 100 (i * 100)) = .ok (pages i) ∧
      (pages i).UHostSet.length = 100)
    (hUfail : cu (ListInstances.request 100 (n * 100)) = .error errU)
    (hG : ∀ i, i < n → ∃ d, cg (GetInstanceMetrics.payload inst 100 (i * 100)) = .decoded d ∧
      d.DataSet.length = 100 ∧ (((i + 1) * 100 : Nat) : Int) < d.TotalCount)
    (hGfail : cg (GetInstanceMetrics.payload inst 100 (n * 100)) = .invokeFailed errG)
    (fuel : Nat) (hfuel : n + 1 ≤ fuel) :
    ListInstances cu fuel
      = some ⟨[], some ("failed to list instances: ".toList ++ errU),
          ListInstances.requests (n + 1)⟩ ∧
    GetInstanceMetrics cg fuel (some inst)
      = some ⟨[], some ("failed to get metrics: ".toList ++ errG),
          GetInstanceMetrics.payloads inst (n + 1)⟩ := by
  obtain ⟨f, rfl⟩ : ∃ f, fuel = (f + 1) + n := ⟨fuel - (n + 1), by omega⟩
  have hlast : List.range (n + 1) = List.range' 0 n ++ [n] := by
    rw [List.range_succ, List.range_eq_range']
  constructor
  · have hadv := ListInstances.loop_passes_full_pages cu pages n 0 (f + 1) [] []
      (fun i _ hi => (hU i (by omega)).1) (fun i _ hi => (hU i (by omega)).2)
    simp only [Nat.zero_mul, Nat.zero_add, List.nil_append] at hadv
    simp only [ListInstances, ListInstances.requests]
    rw [hadv, ListInstances.loop]
    simp only [hUfail, hlast, List.map_append, List.map_cons, List.map_nil]
  · have hadv := GetInstanceMetrics.loop_passes_continuing_pages cg inst n 0 (f + 1) [] []
      (fun i _ hi => hG i (by omega))
    simp only [Nat.zero_mul, Nat.zero_add, List.nil_append] at hadv
    simp only [GetInstanceMetrics, GetInstanceMetrics.payloads]
    rw [hadv, GetInstanceMetrics.loop]
    simp only [hGfail, hlast, List.map_append, List.map_cons, List.map_nil]

theorem page_fetch_failure_is_atomic_witness :
    ListInstances Sample.failingUHostClient 4
      = some ⟨[], some ("failed to list instances: ".toList ++ "timeout".toList),
          ListInstances.requests (1 + 1)⟩ ∧
    GetInstanceMetrics Sample.failingGenericClient 4 (some (Sample.inst "uhost-a".toList))
      = some ⟨[], some ("failed to get metrics: ".toList ++ "timeout".toList),
          GetInstanceMetrics.payloads (Sample.inst "uhost-a".toList) (1 + 1)⟩ :=
  page_fetch_failure_is_atomic Sample.failingUHostClient Sample.instancePages "timeout".toList
    Sample.failingGenericClient (Sample.inst "uhost-a".toList) "timeout".toList 1
    (fun i hi => by
      have : i = 0 := by omega
      subst this
      exact ⟨rfl, by simp [Sample.instancePages]⟩)
    rfl
    (fun i hi => by
      have : i = 0 := by omega
      subst this
      exact ⟨_, rfl, by simp [Sample.metricsPage], by decide⟩)
    rfl 4 (by decide)

/-! ## `GetInstanceMetricsHandler` -/

/-- C8. `GetInstanceMetricsHandler` on an instance without disks.  The instance
`Sample.bareInst`, which `DescribeInstance` returns, has an empty `DiskSet` and
an empty `IPSet`, and `GetInstanceMetrics` returns one record for it.  The
handler then does not return a tool result: evaluating `instance.DiskSet[0]`
stops it with the run-time error "index out of range [0] with length 0",
whatever the clock, the JSON encoder and the loop bound. -/
theorem GetInstanceMetricsHandler_faults_without_disk (now : GoString)
    (MarshalIndent : MetricsResponse → Except GoError GoString) (fuel : Nat) :
    GetInstanceMetricsHandler Sample.bareUHostClient Sample.bareGenericClient now MarshalIndent
        (fuel + 1) (some "uhost-bare".toList)
      = some (HandlerOutcome.indexOutOfRange 0 0) ∧
    DescribeInstance Sample.bareUHostClient "uhost-bare".toList = (some Sample.bareInst, none) ∧
    GetInstanceMetrics Sample.bareGenericClient (fuel + 1) (some Sample.bareInst)
      = some ⟨[Sample.record "uhost-bare".toList 1], none,
          [GetInstanceMetrics.payload Sample.bareInst 100 0]⟩ ∧
    (FormatInstanceInfo now (some Sample.bareInst)).map (fun info => (info.DiskSize, info.IP))
      = some (0, []) := by
  refine ⟨?_, rfl, rfl, rfl⟩
  rfl

/-! ## `FormatInstanceInfo` -/

/-- C9, as stated, fails: the view `FormatInstanceInfo` builds for an instance
at the clock reading `Sample.timestamp` has that reading as its `Timestamp`,
not the empty string. -/
theorem FormatInstanceInfo_timestamp_not_absent :
    ¬ ∃ info, FormatInstanceInfo Sample.timestamp (some (Sample.inst "uhost-a".toList))
        = some info ∧ info.Metrics = none ∧ info.Timestamp = [] := by
  rintro ⟨info, hinfo, _, hts⟩
  simp only [FormatInstanceInfo, Option.some.injEq] at hinfo
  subst hinfo
  simp [Sample.timestamp] at hts

/-- C9, amended.  For every non-nil instance the view built by
`FormatInstanceInfo` has a nil `Metrics` field and carries the generation
timestamp, the current time in RFC 3339; `FormatInstanceInfoWithMetrics`
returns the same view, same timestamp, with the supplied metrics sequence
attached. -/
theorem FormatInstanceInfo_stamps_timestamp (now : GoString) (inst : UHostInstanceSet)
    (metrics : List InstanceMetrics) :
    ∃ info, FormatInstanceInfo now (some inst) = some info ∧
      info.Metrics = none ∧ info.Timestamp = now ∧
      FormatInstanceInfoWithMetrics now (some inst) metrics
        = some { info with Metrics := some metrics } := by
  exact ⟨_, rfl, rfl, rfl, rfl⟩

/-- C10. `FormatInstanceInfo` is a total projection with first-element
selection.  For every non-nil instance it returns a view whose `ID`, `Name`,
`Status`, `Zone`, `CPU` and `Memory` are the `UHostId`, `Name`, `State`,
`Zone`, `CPU` and `Memory` of the instance, whose `DiskSize` is the `Size` of
the first element of `DiskSet`, or 0 when `DiskSet` is empty, and whose `IP` is
the `IP` of the first element of `IPSet`, or the empty string when `IPSet` is
empty. -/
theorem FormatInstanceInfo_projects_instance (now : GoString) (inst : UHostInstanceSet) :
    ∃ info, FormatInstanceInfo now (some inst) = some info ∧
      info.ID = inst.UHostId ∧ info.Name = inst.Name ∧ info.Status = inst.State ∧
      info.Zone = inst.Zone ∧ info.CPU = inst.CPU ∧ info.Memory = inst.Memory ∧
      info.DiskSize = (inst.DiskSet.head?.map (fun disk => disk.Size)).getD 0 ∧
      info.IP = (inst.IPSet.head?.map (fun ip => ip.IP)).getD [] := by
  refine ⟨_, rfl, rfl, rfl, rfl, rfl, rfl, rfl, ?_, ?_⟩
  · cases h : inst.DiskSet <;> simp [h]
  · cases h : inst.IPSet <;> simp [h]

/-! ## `InstanceListToolHandler` -/

/-- A run of the loop of `GetInstanceMetrics` that ends with an error returns
no records. -/
theorem GetInstanceMetrics.loop_error_returns_nothing (c : GenericClient)
    (inst : UHostInstanceSet) (fuel : Nat) :
    ∀ (offset : Nat) (metrics : List InstanceMetrics) (calls : List MetricPayload)
      (run : Run (List InstanceMetrics) MetricPayload),
      GetInstanceMetrics.loop c inst fuel offset metrics calls = some run →
      run.err ≠ none → run.value = [] := by
  induction fuel with
  | zero =>
    intro offset metrics calls run h
    simp [GetInstanceMetrics.loop] at h
  | succ fuel ih =>
    intro offset metrics calls run h herr
    rw [GetInstanceMetrics.loop] at h
    cases hc : c (GetInstanceMetrics.payload inst 100 offset) with
    | setPayloadFailed e =>
      simp only [hc, Option.some.injEq] at h
      subst h
      rfl
    | invokeFailed e =>
      simp only [hc, Option.some.injEq] at h
      subst h
      rfl
    | marshalFailed e =>
      simp only [hc, Option.some.injEq] at h
      subst h
      rfl
    | unmarshalFailed e =>
      simp only [hc, Option.some.injEq] at h
      subst h
      rfl
    | decoded d =>
      simp only [hc] at h
      split at h
      · simp only [Option.some.injEq] at h
        subst h
        exact absurd rfl herr
      · split at h
        · simp only [Option.some.injEq] at h
          subst h
          exact absurd rfl herr
        · exact ih _ _ _ run h herr

/-- The loop of `InstanceListToolHandler` appends one view per instance, in
order: the view of each instance with the records its own call returned. -/
theorem InstanceListToolHandler.loop_appends_views (genericClient : Nat → GenericClient)
    (now : Nat → GoString) (fuel : Nat)
    (runs : Nat → Run (List InstanceMetrics) MetricPayload)
    (instances : List UHostInstanceSet) :
    ∀ (i : Nat) (all : List (Option InstanceInfo)),
      (∀ (j : Nat) (inst : UHostInstanceSet), instances[j]? = some inst →
        GetInstanceMetrics (genericClient (i + j)) fuel (some inst) = some (runs (i + j))) →
      ∃ views, InstanceListToolHandler.loop genericClient now fuel i instances all
          = some (all ++ views) ∧
        views.length = instances.length ∧
        ∀ (j : Nat) (inst : UHostInstanceSet), instances[j]? = some inst →
          views[j]? = some (FormatInstanceInfoWithMetrics (now (i + j)) (some inst)
            (runs (i + j)).value) := by
  induction instances with
  | nil =>
    intro i all _
    refine ⟨[], by simp [InstanceListToolHandler.loop], rfl, ?_⟩
    intro j inst h
    simp at h
  | cons inst0 rest ih =>
    intro i all hruns
    have h0 := hruns 0 inst0 (by simp)
    rw [Nat.add_zero] at h0
    obtain ⟨views, hloop, hlen, hview⟩ := ih (i + 1)
      (all ++ [FormatInstanceInfoWithMetrics (now i) (some inst0) (runs i).value])
      (fun j inst hj => by
        have := hruns (j + 1) inst (by simpa using hj)
        rwa [show i + (j + 1) = i + 1 + j by ring] at this)
    refine ⟨FormatInstanceInfoWithMetrics (now i) (some inst0) (runs i).value :: views,
      ?_, by simp [hlen], ?_⟩
    · rw [InstanceListToolHandler.loop]
      simp only [h0, hloop, List.append_assoc, List.singleton_append]
    · intro j inst hj
      cases j with
      | zero =>
        simp only [List.getElem?_cons_zero, Option.some.injEq] at hj
        subst hj
        simp
      | succ j =>
        have := hview j inst (by simpa using hj)
        rw [show i + 1 + j = i + (j + 1) by ring] at this
        simpa using this

/-- C11. `instance_list` is best-effort per item.  Let `ListInstances` return
the list `instances`, let the call of `GetInstanceMetrics` for each instance
return, with or without an error, and let the JSON encoder not fail.  Then
`InstanceListToolHandler` returns a success result whose text encodes a list
`views` with exactly one view per instance, in list order.  The view at
position `j` is the view `FormatInstanceInfo` builds for instance `j`, with the
records that the call for instance `j` returned attached; it depends on no
other call.  When that call failed, the records attached are none. -/
theorem InstanceListToolHandler_best_effort (uhostClient : UHostClient)
    (genericClient : Nat → GenericClient) (now : Nat → GoString)
    (MarshalIndent : List (Option InstanceInfo) → Except GoError GoString) (fuel : Nat)
    (instances : List UHostInstanceSet) (calls : List DescribeUHostInstanceRequest)
    (runs : Nat → Run (List InstanceMetrics) MetricPayload)
    (hlist : ListInstances uhostClient fuel = some ⟨instances, none, calls⟩)
    (hruns : ∀ (j : Nat) (inst : UHostInstanceSet), instances[j]? = some inst →
      GetInstanceMetrics (genericClient j) fuel (some inst) = some (runs j))
    (hjson : ∀ views, ∃ jsonData, MarshalIndent views = .ok jsonData) :
    ∃ views jsonData,
      InstanceListToolHandler uhostClient genericClient now MarshalIndent fuel
        = some (HandlerOutcome.returned (some ⟨jsonData, false⟩) none) ∧
      MarshalIndent views = .ok jsonData ∧
      views.length = instances.length ∧
      ∀ (j : Nat) (inst : UHostInstanceSet), instances[j]? = some inst →
        ∃ info, FormatInstanceInfo (now j) (some inst) = some info ∧
          views[j]? = some (some { info with Metrics := some (runs j).value }) ∧
          ((runs j).err ≠ none → (runs j).value = []) := by
  obtain ⟨views, hloop, hlen, hview⟩ :=
    InstanceListToolHandler.loop_appends_views genericClient now fuel runs instances 0 []
      (fun j inst hj => by simpa using hruns j inst hj)
  obtain ⟨jsonData, hdata⟩ := hjson views
  rw [List.nil_append] at hloop
  refine ⟨views, jsonData, ?_, hdata, hlen, ?_⟩
  · simp only [InstanceListToolHandler, hlist, hloop, hdata]
  · intro j inst hj
    have hv := hview j inst hj
    rw [Nat.zero_add] at hv
    refine ⟨_, rfl, ?_, ?_⟩
    · rw [hv]
      rfl
    · intro herr
      have hrun := hruns j inst hj
      simp only [GetInstanceMetrics] at hrun
      exact GetInstanceMetrics.loop_error_returns_nothing (genericClient j) inst fuel 0 [] []
        (runs j) hrun herr

theorem InstanceListToolHandler_best_effort_witness :
    ∃ views jsonData,
      InstanceListToolHandler Sample.twoInstancesClient Sample.perCallClient
          (fun _ => Sample.timestamp) Sample.marshalViews 3
        = some (HandlerOutcome.returned (some ⟨jsonData, false⟩) none) ∧
      Sample.marshalViews views = .ok jsonData ∧
      views.length = [Sample.inst "uhost-a".toList, Sample.inst "uhost-b".toList].length ∧
      ∀ (j : Nat) (inst : UHostInstanceSet),
        [Sample.inst "uhost-a".toList, Sample.inst "uhost-b".toList][j]? = some inst →
        ∃ info, FormatInstanceInfo ((fun _ => Sample.timestamp) j) (some inst) = some info ∧
          views[j]? = some (some { info with Metrics := some (Sample.perCallRuns j).value }) ∧
          ((Sample.perCallRuns j).err ≠ none → (Sample.perCallRuns j).value = []) :=
  InstanceListToolHandler_best_effort Sample.twoInstancesClient Sample.perCallClient
    (fun _ => Sample.timestamp) Sample.marshalViews 3
    [Sample.inst "uhost-a".toList, Sample.inst "uhost-b".toList]
    [ListInstances.request 100 0] Sample.perCallRuns rfl
    (fun j inst hj => by
      rcases j with _ | _ | j
      · simp only [List.getElem?_cons_zero, Option.some.injEq] at hj
        subst hj
        rfl
      · simp only [List.getElem?_cons_succ, List.getElem?_cons_zero, Option.some.injEq] at hj
        subst hj
        rfl
      · simp at hj)
    (fun views => ⟨_, rfl⟩)

/-- The loop of `ListInstances` against `Sample.alwaysFullClient` uses up any
fuel. -/
theorem ListInstances.loop_never_leaves_full_pages (fuel : Nat) :
    ∀ (offset : Nat) (allInstances : List UHostInstanceSet)
      (calls : List DescribeUHostInstanceRequest),
      ListInstances.loop Sample.alwaysFullClient fuel offset allInstances calls = none := by
  induction fuel with
  | zero =>
    intro offset allInstances calls
    rfl
  | succ fuel ih =>
    intro offset allInstances calls
    rw [ListInstances.loop]
    simp only [Sample.alwaysFullClient, List.length_replicate, Nat.lt_irrefl, if_false]
    exact ih _ _ _

/-- C12. `ListInstances` and the total count.  `Sample.twoHundredClient` holds
exactly 200 instances and reports the total count 200.  The page at the offset
100 is full and 100 + 100 reaches the total, yet `ListInstances` has not
returned after two fetches and issues a third one, at the offset 200; it
returns after the empty page that one brings.  Against
`Sample.alwaysFullClient`, about which the claim says "exactly 2 fetches", it
does not return within any number of iterations. -/
theorem ListInstances_ignores_total_count (fuel : Nat) :
    ListInstances Sample.twoHundredClient 2 = none ∧
    ListInstances Sample.twoHundredClient (fuel + 3)
      = some ⟨List.replicate 200 (Sample.inst "uhost-a".toList), none,
          [ListInstances.request 100 0, ListInstances.request 100 100,
            ListInstances.request 100 200]⟩ ∧
    ListInstances Sample.alwaysFullClient fuel = none := by
  refine ⟨rfl, ?_, ListInstances.loop_never_leaves_full_pages fuel 0 [] []⟩
  have hsplit : List.replicate 200 (Sample.inst "uhost-a".toList)
      = List.replicate 100 (Sample.inst "uhost-a".toList)
        ++ List.replicate 100 (Sample.inst "uhost-a".toList) := by
    rw [← List.replicate_add]
  rw [hsplit]
  simp [ListInstances, ListInstances.loop, Sample.twoHundredClient, ListInstances.request]

/-- C13. `GetInstanceMetrics` without a total count.  The answers of
`Sample.noTotalClient` carry no `TotalCount`, which decodes to 0.  The first
page is full, so the loop adds 100 to the offset; 100 >= 0 then holds and the
loop leaves: `GetInstanceMetrics` returns after one fetch, at the offset 0, and
never fetches the page at the offset 100, which holds the one record of the
instance. -/
theorem GetInstanceMetrics_stops_without_total_count (fuel : Nat) :
    GetInstanceMetrics Sample.noTotalClient (fuel + 1) (some (Sample.inst "uhost-a".toList))
      = some ⟨[], none, [GetInstanceMetrics.payload (Sample.inst "uhost-a".toList) 100 0]⟩ ∧
    (Sample.noTotalClient
        (GetInstanceMetrics.payload (Sample.inst "uhost-a".toList) 100 100)).dataSet
      = [Sample.record "uhost-a".toList 4] := by
  refine ⟨?_, rfl⟩
  rfl

end UCloud
